import Mathlib

/-!
# A shallow embedding of the IconVG path-rasterization backend

This file embeds the stateful `Rasterizer` of the IconVG backend
(`rasterizer.go`) in Lean 4 and proves properties of its operations.

Modelling conventions:
* Go `float32`/`float64` coordinate and register arithmetic is modelled over
  `ℚ` (exact field arithmetic; IEEE rounding, NaN and infinities of
  intermediate computations are not modelled).  The two LOD bounds can be
  genuine infinities in the source (`positiveInfinity`), so they live in a
  dedicated three-way type `FVal` with `-inf`, finite, `+inf` values.
* Go `uint8` arithmetic is modelled on `ℕ` with explicit `% 256` wrap-around,
  and the 6-bit masks `& 0x3f` are kept literally as `&&& 63`.
* The downstream scanline coverage rasterizer (`z.z : vector.Rasterizer`) and
  the gradient sampler are external collaborators.  They are modelled by the
  interface the core uses: a pen position, a settable compositing operator,
  and a trace of the calls the core issues to them (`Event` list).
* Transcendental functions of the arc converter (`math.Sin` etc.) are
  abstracted as an explicit `TrigOps` parameter; the arc algorithm itself is
  embedded structurally.
-/

namespace IconVG

/-- Premultiplied 8-bit RGBA color (Go `color.RGBA`); channels are `ℕ`
with `uint8` values produced by the operations that build them. -/
structure RGBA where
  r : ℕ
  g : ℕ
  b : ℕ
  a : ℕ
deriving DecidableEq

/-- A `float32` scalar that may be `±∞`, used for the LOD bounds
(`positiveInfinity` appears in `Reset`). -/
inductive FVal where
  | ninf : FVal
  | fin (q : ℚ) : FVal
  | pinf : FVal
deriving DecidableEq

/-- `≤` on extended scalars, as Go `<=` on non-NaN floats. -/
def FVal.leb : FVal → FVal → Bool
  | .ninf, _ => true
  | .fin _, .ninf => false
  | .fin a, .fin b => a ≤ b
  | .fin _, .pinf => true
  | .pinf, .pinf => true
  | .pinf, _ => false

/-- `<` on extended scalars, as Go `<` on non-NaN floats. -/
def FVal.ltb : FVal → FVal → Bool
  | .ninf, .ninf => false
  | .ninf, _ => true
  | .fin _, .ninf => false
  | .fin a, .fin b => a < b
  | .fin _, .pinf => true
  | .pinf, _ => false

/-- 2-D point in pixel (or graphic) coordinates (`f32.Vec2`). -/
abbrev Vec2 := ℚ × ℚ

/-- `image.Rectangle` with integer pixel coordinates. -/
structure Rect where
  minX : ℤ
  minY : ℤ
  maxX : ℤ
  maxY : ℤ
deriving DecidableEq

/-- `image.Rectangle.Empty`. -/
def Rect.isEmpty (r : Rect) : Bool := r.maxX ≤ r.minX || r.maxY ≤ r.minY

/-- `image.Rectangle.Dx`. -/
def Rect.dx (r : Rect) : ℤ := r.maxX - r.minX

/-- `image.Rectangle.Dy`. -/
def Rect.dy (r : Rect) : ℤ := r.maxY - r.minY

/-- The zero `image.Rectangle{}`. -/
def Rect.zero : Rect := ⟨0, 0, 0, 0⟩

/-- Membership of an integer pixel in a rectangle (`image.Point.In`). -/
def Rect.containsB (r : Rect) (p : ℤ × ℤ) : Bool :=
  r.minX ≤ p.1 && p.1 < r.maxX && r.minY ≤ p.2 && p.2 < r.maxY

/-- The Porter-Duff compositing operator (`draw.Op`): `Over` or `Src`. -/
inductive DrawOp where
  | over : DrawOp
  | src : DrawOp
deriving DecidableEq

/-- A gradient color stop (`gradient.Stop`), offset plus 16-bit RGBA64. -/
structure Stop where
  offset : ℚ
  r : ℕ
  g : ℕ
  b : ℕ
  a : ℕ
deriving DecidableEq

/-- The gradient collaborator's observable state: not yet initialized, or the
arguments of the last `InitLinear` / `InitCircular` call. -/
inductive GradientState where
  | uninit : GradientState
  | linear (x0 y0 x1 y1 : ℚ) (spread : ℕ) (stops : List Stop) : GradientState
  | circular (cx cy rad : ℚ) (spread : ℕ) (stops : List Stop) : GradientState
deriving DecidableEq

/-- Stops recorded in the gradient collaborator. -/
def GradientState.stopsOf : GradientState → List Stop
  | .uninit => []
  | .linear _ _ _ _ _ s => s
  | .circular _ _ _ _ s => s

/-- What `z.fill` points at: `nil`, the uniform flat-color image, or the
gradient collaborator. -/
inductive Fill where
  | nofill : Fill
  | flat : Fill
  | gradient : Fill
deriving DecidableEq

/-- A call issued by the core to the downstream coverage rasterizer
(`z.z : vector.Rasterizer`).  `vecReset w h` is `z.z.Reset(w, h)`,
`setDrawOp` is the assignment `z.z.DrawOp = op`, `draw r f` is
`z.z.Draw(dst, r, fill, image.Point{})` with the fill in use. -/
inductive Event where
  | vecReset (w h : ℤ) : Event
  | setDrawOp (op : DrawOp) : Event
  | moveTo (p : Vec2) : Event
  | lineTo (p : Vec2) : Event
  | quadTo (c p : Vec2) : Event
  | cubeTo (c1 c2 p : Vec2) : Event
  | closePath : Event
  | draw (r : Rect) (fill : Fill) : Event
deriving DecidableEq

/-- Is the event a `CubeTo` call? -/
def Event.isCubeTo : Event → Bool
  | .cubeTo _ _ _ => true
  | _ => false

/-- `smoothTypeNone` -/
def smoothTypeNone : ℕ := 0
/-- `smoothTypeQuad` -/
def smoothTypeQuad : ℕ := 1
/-- `smoothTypeCube` -/
def smoothTypeCube : ℕ := 2

/-- IconVG `Metadata`: the view box and the 64-color suggested palette. -/
structure Metadata where
  viewMinX : ℚ
  viewMinY : ℚ
  viewMaxX : ℚ
  viewMaxY : ℚ
  palette : Fin 64 → RGBA

/-- Modelled from the spec: `Color.Resolve(&z.metadata.Palette, &z.cReg)` is a
collaborator (the `Color` type lives outside the embedded source) that
produces a concrete RGBA from the palette and the current color registers.
A value of this type stands for one encoded `Color` operand. -/
def ColorResolve : Type := (Fin 64 → RGBA) → (Fin 64 → RGBA) → RGBA

/-- Modelled from the spec: `validAlphaPremulColor` (defined outside the
embedded source file) holds iff every channel is at most the alpha channel. -/
def validAlphaPremulColor (c : RGBA) : Bool :=
  c.r ≤ c.a && c.g ≤ c.a && c.b ≤ c.a

/-- Reduce a register index to the 6-bit range, as the source's `& 0x3f`. -/
def m64 (k : ℕ) : Fin 64 :=
  ⟨k &&& 63, lt_of_le_of_lt Nat.and_le_right (by norm_num)⟩

/-- Reduce a (possibly negative) Go `int` index to the 6-bit range: Go's
`& 0x3f` on two's-complement integers is `% 64` in the Euclidean sense. -/
def m64z (k : ℤ) : Fin 64 :=
  ⟨(k % 64).toNat, by omega⟩

/-- Go `uint8` subtraction `a - b` (wrap-around mod 256). -/
def u8sub (a b : ℕ) : ℕ := (a % 256 + 256 - b % 256) % 256

/-- The full `Rasterizer` state, together with the observable state of its
downstream collaborators: the coverage rasterizer's pen and compositing
operator, the gradient collaborator, and the trace of all calls issued to
the coverage rasterizer. -/
structure Rasterizer where
  /-- `z.dst != nil` -/
  dstBound : Bool
  /-- `z.r` -/
  r : Rect
  /-- `z.drawOp` -/
  drawOp : DrawOp
  /-- `z.scaleX` -/
  scaleX : ℚ
  /-- `z.biasX` -/
  biasX : ℚ
  /-- `z.scaleY` -/
  scaleY : ℚ
  /-- `z.biasY` -/
  biasY : ℚ
  /-- `z.metadata.ViewBox.Min[0]` -/
  viewMinX : ℚ
  /-- `z.metadata.ViewBox.Min[1]` -/
  viewMinY : ℚ
  /-- `z.metadata.ViewBox.Max[0]` -/
  viewMaxX : ℚ
  /-- `z.metadata.ViewBox.Max[1]` -/
  viewMaxY : ℚ
  /-- `z.metadata.Palette` -/
  palette : Fin 64 → RGBA
  /-- `z.lod0` -/
  lod0 : FVal
  /-- `z.lod1` -/
  lod1 : FVal
  /-- `z.cSel` (a `uint8`, so an `ℕ` kept below 256) -/
  cSel : ℕ
  /-- `z.nSel` -/
  nSel : ℕ
  /-- `z.disabled` -/
  disabled : Bool
  /-- `z.firstStartPath` -/
  firstStartPath : Bool
  /-- `z.prevSmoothType` -/
  prevSmoothType : ℕ
  /-- `z.prevSmoothPoint` -/
  prevSmoothPoint : Vec2
  /-- `z.fill` -/
  fill : Fill
  /-- `z.flatColor` -/
  flatColor : RGBA
  /-- the gradient collaborator `z.gradient` -/
  gradientState : GradientState
  /-- `z.cReg` -/
  cReg : Fin 64 → RGBA
  /-- `z.nReg` -/
  nReg : Fin 64 → ℚ
  /-- the coverage rasterizer's pen `z.z.Pen()` -/
  pen : Vec2
  /-- the coverage rasterizer's `z.z.DrawOp` field -/
  zDrawOp : DrawOp
  /-- trace of calls issued to the coverage rasterizer -/
  trace : List Event

/-- The Go zero value of `Rasterizer` (plus collaborator zero values). -/
def initial : Rasterizer where
  dstBound := false
  r := Rect.zero
  drawOp := .over
  scaleX := 0
  biasX := 0
  scaleY := 0
  biasY := 0
  viewMinX := 0
  viewMinY := 0
  viewMaxX := 0
  viewMaxY := 0
  palette := fun _ => ⟨0, 0, 0, 0⟩
  lod0 := .fin 0
  lod1 := .fin 0
  cSel := 0
  nSel := 0
  disabled := false
  firstStartPath := false
  prevSmoothType := smoothTypeNone
  prevSmoothPoint := (0, 0)
  fill := .nofill
  flatColor := ⟨0, 0, 0, 0⟩
  gradientState := .uninit
  cReg := fun _ => ⟨0, 0, 0, 0⟩
  nReg := fun _ => 0
  pen := (0, 0)
  zDrawOp := .over
  trace := []

namespace Rasterizer

/-! ## Downstream coverage-rasterizer calls (collaborator interface) -/

/-- Append one downstream call to the trace. -/
def emit (z : Rasterizer) (e : Event) : Rasterizer :=
  { z with trace := z.trace ++ [e] }

/-- `z.z.Reset(w, h)`: restart the coverage rasterizer; pen returns to the
origin. -/
def vecReset (z : Rasterizer) (w h : ℤ) : Rasterizer :=
  { z with pen := (0, 0), trace := z.trace ++ [.vecReset w h] }

/-- `z.z.MoveTo(p)` -/
def vecMoveTo (z : Rasterizer) (p : Vec2) : Rasterizer :=
  { z with pen := p, trace := z.trace ++ [.moveTo p] }

/-- `z.z.LineTo(p)` -/
def vecLineTo (z : Rasterizer) (p : Vec2) : Rasterizer :=
  { z with pen := p, trace := z.trace ++ [.lineTo p] }

/-- `z.z.QuadTo(c, p)` -/
def vecQuadTo (z : Rasterizer) (c p : Vec2) : Rasterizer :=
  { z with pen := p, trace := z.trace ++ [.quadTo c p] }

/-- `z.z.CubeTo(c1, c2, p)` -/
def vecCubeTo (z : Rasterizer) (c1 c2 p : Vec2) : Rasterizer :=
  { z with pen := p, trace := z.trace ++ [.cubeTo c1 c2 p] }

/-- `z.z.ClosePath()` (the collaborator's pen move on close is not observed
by any embedded operation, so the pen is left in place). -/
def vecClosePath (z : Rasterizer) : Rasterizer :=
  { z with trace := z.trace ++ [.closePath] }

/-- `z.z.Draw(z.dst, z.r, z.fill, image.Point{})` -/
def vecDraw (z : Rasterizer) : Rasterizer :=
  { z with trace := z.trace ++ [.draw z.r z.fill] }

/-! ## Transform -/

/-- `recalcTransform` -/
def recalcTransform (z : Rasterizer) : Rasterizer :=
  { z with
    scaleX := (z.r.dx : ℚ) / (z.viewMaxX - z.viewMinX)
    biasX := -z.viewMinX
    scaleY := (z.r.dy : ℚ) / (z.viewMaxY - z.viewMinY)
    biasY := -z.viewMinY }

/-- `absX` -/
def absX (z : Rasterizer) (x : ℚ) : ℚ := z.scaleX * (x + z.biasX)
/-- `absY` -/
def absY (z : Rasterizer) (y : ℚ) : ℚ := z.scaleY * (y + z.biasY)
/-- `relX` -/
def relX (z : Rasterizer) (x : ℚ) : ℚ := z.scaleX * x
/-- `relY` -/
def relY (z : Rasterizer) (y : ℚ) : ℚ := z.scaleY * y
/-- `unabsX` -/
def unabsX (z : Rasterizer) (x : ℚ) : ℚ := x / z.scaleX - z.biasX
/-- `unabsY` -/
def unabsY (z : Rasterizer) (y : ℚ) : ℚ := y / z.scaleY - z.biasY

/-- `absVec2` -/
def absVec2 (z : Rasterizer) (x y : ℚ) : Vec2 := (z.absX x, z.absY y)

/-- `relVec2` (reads the current pen). -/
def relVec2 (z : Rasterizer) (x y : ℚ) : Vec2 :=
  (z.pen.1 + z.relX x, z.pen.2 + z.relY y)

/-! ## Register and lifecycle operations -/

/-- `SetDstImage(dst, r, drawOp)` -/
def SetDstImage (z : Rasterizer) (dstBound : Bool) (r : Rect) (op : DrawOp) :
    Rasterizer :=
  recalcTransform
    { z with
      dstBound := dstBound
      r := if r.isEmpty then Rect.zero else r
      drawOp := op }

/-- `Reset(m Metadata)` -/
def Reset (z : Rasterizer) (m : Metadata) : Rasterizer :=
  recalcTransform
    { z with
      viewMinX := m.viewMinX
      viewMinY := m.viewMinY
      viewMaxX := m.viewMaxX
      viewMaxY := m.viewMaxY
      palette := m.palette
      lod0 := .fin 0
      lod1 := .pinf
      cSel := 0
      nSel := 0
      firstStartPath := true
      prevSmoothType := smoothTypeNone
      prevSmoothPoint := (0, 0)
      cReg := m.palette
      nReg := fun _ => 0 }

/-- `SetCSel(cSel)` -/
def SetCSel (z : Rasterizer) (v : ℕ) : Rasterizer := { z with cSel := v &&& 63 }

/-- `SetNSel(nSel)` -/
def SetNSel (z : Rasterizer) (v : ℕ) : Rasterizer := { z with nSel := v &&& 63 }

/-- `SetCReg(adj, incr, c)`; `c` is the encoded color's `Resolve` step. -/
def SetCReg (z : Rasterizer) (adj : ℕ) (incr : Bool) (c : ColorResolve) :
    Rasterizer :=
  { z with
    cReg := Function.update z.cReg (m64 (u8sub z.cSel adj)) (c z.palette z.cReg)
    cSel := if incr then (z.cSel + 1) % 256 else z.cSel }

/-- `SetNReg(adj, incr, f)` -/
def SetNReg (z : Rasterizer) (adj : ℕ) (incr : Bool) (f : ℚ) : Rasterizer :=
  { z with
    nReg := Function.update z.nReg (m64 (u8sub z.nSel adj)) f
    nSel := if incr then (z.nSel + 1) % 256 else z.nSel }

/-- `SetLOD(lod0, lod1)` -/
def SetLOD (z : Rasterizer) (l0 l1 : FVal) : Rasterizer :=
  { z with lod0 := l0, lod1 := l1 }

/-- `implicitSmoothPoint(thisSmoothType)` -/
def implicitSmoothPoint (z : Rasterizer) (thisSmoothType : ℕ) : Vec2 :=
  if z.prevSmoothType ≠ thisSmoothType then z.pen
  else (2 * z.pen.1 - z.prevSmoothPoint.1, 2 * z.pen.2 - z.prevSmoothPoint.2)

end Rasterizer

/-! ## Gradient initialization -/

/-- One 8-bit channel replicated to 16 bits (`uint16(c) * 0x101`). -/
def rep16 (c : ℕ) : ℕ := c * 0x101

/-- The stop built from offset `n` and color `c`. -/
def stopOf (n : ℚ) (c : RGBA) : Stop :=
  ⟨n, rep16 c.r, rep16 c.g, rep16 c.b, rep16 c.a⟩

/-- Is offset `n` strictly above the previous offset?  `none` models the
initial `prevN = negativeInfinity`. -/
def ltPrev : Option ℚ → ℚ → Bool
  | none, _ => true
  | some p, n => p < n

/-- The stop-validation loop of `initGradient`: starting at stop index `i`
with `rem` stops still to read and previous offset `prev`, return the
collected stop list, or `none` on the first validation failure.  (The Go code
writes the stops into the scratch array `z.stops` and passes the slice
`z.stops[:nStops]` to the gradient collaborator; the list built here is that
slice.) -/
def gradientStops (cReg : Fin 64 → RGBA) (nReg : Fin 64 → ℚ)
    (cBase nBase : ℕ) : (i rem : ℕ) → (prev : Option ℚ) → Option (List Stop)
  | _, 0, _ => some []
  | i, rem + 1, prev =>
    let c := cReg (m64 (cBase + i))
    if validAlphaPremulColor c = false then none
    else
      let n := nReg (m64 (nBase + i))
      if ¬(0 ≤ n ∧ n ≤ 1) ∨ ltPrev prev n = false then none
      else
        match gradientStops cReg nReg cBase nBase (i + 1) rem (some n) with
        | none => none
        | some rest => some (stopOf n c :: rest)

namespace Rasterizer

/-- `initGradient(rgba)`: returns the `ok` flag and the state (the gradient
collaborator is (re)initialized on success). -/
def initGradient (z : Rasterizer) (rgba : RGBA) : Bool × Rasterizer :=
  let nStops := rgba.r &&& 63
  let cBase := rgba.g &&& 63
  let nBase := rgba.b &&& 63
  match gradientStops z.cReg z.nReg cBase nBase 0 nStops none with
  | none => (false, z)
  | some stops =>
    if (rgba.b >>> 6) &&& 1 = 0 then
      let gs := GradientState.linear
        (z.absX (z.nReg (m64z ((nBase : ℤ) - 4))))
        (z.absY (z.nReg (m64z ((nBase : ℤ) - 3))))
        (z.absX (z.nReg (m64z ((nBase : ℤ) - 2))))
        (z.absY (z.nReg (m64z ((nBase : ℤ) - 1))))
        (rgba.g >>> 6) stops
      (true, { z with gradientState := gs })
    else
      let gs := GradientState.circular
        (z.absX (z.nReg (m64z ((nBase : ℤ) - 4))))
        (z.absY (z.nReg (m64z ((nBase : ℤ) - 3))))
        (z.relX (z.nReg (m64z ((nBase : ℤ) - 1))))
        (rgba.g >>> 6) stops
      (true, { z with gradientState := gs })

/-! ## StartPath and path finalization -/

/-- The color register `StartPath(adj, ..)` reads: slot `(z.cSel - adj) & 0x3f`. -/
def selColor (z : Rasterizer) (adj : ℕ) : RGBA := z.cReg (m64 (u8sub z.cSel adj))

/-- The LOD gate of `StartPath`: `z.lod0 <= h && h < z.lod1` with
`h = float32(z.r.Dy())`. -/
def lodGate (z : Rasterizer) : Bool :=
  FVal.leb z.lod0 (.fin (z.r.dy : ℚ)) && FVal.ltb (.fin (z.r.dy : ℚ)) z.lod1

/-- The paint-resolution prefix of `StartPath` (lines up to the LOD gate):
assign `z.flatColor` and take one of the three branches.  Note that the
final `else` branch (malformed color) assigns nothing besides `flatColor`. -/
def startPathPaint (z : Rasterizer) (adj : ℕ) : Rasterizer :=
  let flatColor := z.selColor adj
  if validAlphaPremulColor flatColor then
    { z with flatColor := flatColor, fill := .flat,
             disabled := flatColor.a = 0 }
  else if flatColor.a = 0 ∧ flatColor.b &&& 0x80 ≠ 0 then
    let g := z.initGradient flatColor
    { g.2 with flatColor := flatColor, fill := .gradient, disabled := !g.1 }
  else
    { z with flatColor := flatColor }

/-- `StartPath(adj, x, y)` -/
def StartPath (z : Rasterizer) (adj : ℕ) (x y : ℚ) : Rasterizer :=
  let z1 := z.startPathPaint adj
  let z2 := { z1 with disabled := z1.disabled || !z1.lodGate }
  if z2.disabled then z2
  else
    let z3 := z2.vecReset z2.r.dx z2.r.dy
    let z4 :=
      if z3.firstStartPath then
        { z3 with firstStartPath := false, zDrawOp := z3.drawOp,
                  trace := z3.trace ++ [.setDrawOp z3.drawOp] }
      else z3
    let z5 := { z4 with prevSmoothType := smoothTypeNone }
    z5.vecMoveTo (z5.absVec2 x y)

/-- `ClosePathEndPath()` -/
def ClosePathEndPath (z : Rasterizer) : Rasterizer :=
  if z.disabled then z
  else
    let z1 := z.vecClosePath
    if z1.dstBound = false then z1 else z1.vecDraw

/-- `ClosePathAbsMoveTo(x, y)` -/
def ClosePathAbsMoveTo (z : Rasterizer) (x y : ℚ) : Rasterizer :=
  if z.disabled then z
  else
    let z1 := { z with prevSmoothType := smoothTypeNone }
    let z2 := z1.vecClosePath
    z2.vecMoveTo (z2.absVec2 x y)

/-- `ClosePathRelMoveTo(x, y)` -/
def ClosePathRelMoveTo (z : Rasterizer) (x y : ℚ) : Rasterizer :=
  if z.disabled then z
  else
    let z1 := { z with prevSmoothType := smoothTypeNone }
    let z2 := z1.vecClosePath
    z2.vecMoveTo (z2.relVec2 x y)

/-! ## Straight lines -/

/-- `AbsHLineTo(x)` -/
def AbsHLineTo (z : Rasterizer) (x : ℚ) : Rasterizer :=
  if z.disabled then z
  else
    let z1 := { z with prevSmoothType := smoothTypeNone }
    z1.vecLineTo (z1.absX x, z1.pen.2)

/-- `RelHLineTo(x)` -/
def RelHLineTo (z : Rasterizer) (x : ℚ) : Rasterizer :=
  if z.disabled then z
  else
    let z1 := { z with prevSmoothType := smoothTypeNone }
    z1.vecLineTo (z1.pen.1 + z1.relX x, z1.pen.2)

/-- `AbsVLineTo(y)` -/
def AbsVLineTo (z : Rasterizer) (y : ℚ) : Rasterizer :=
  if z.disabled then z
  else
    let z1 := { z with prevSmoothType := smoothTypeNone }
    z1.vecLineTo (z1.pen.1, z1.absY y)

/-- `RelVLineTo(y)` -/
def RelVLineTo (z : Rasterizer) (y : ℚ) : Rasterizer :=
  if z.disabled then z
  else
    let z1 := { z with prevSmoothType := smoothTypeNone }
    z1.vecLineTo (z1.pen.1, z1.pen.2 + z1.relY y)

/-- `AbsLineTo(x, y)` -/
def AbsLineTo (z : Rasterizer) (x y : ℚ) : Rasterizer :=
  if z.disabled then z
  else
    let z1 := { z with prevSmoothType := smoothTypeNone }
    z1.vecLineTo (z1.absVec2 x y)

/-- `RelLineTo(x, y)` -/
def RelLineTo (z : Rasterizer) (x y : ℚ) : Rasterizer :=
  if z.disabled then z
  else
    let z1 := { z with prevSmoothType := smoothTypeNone }
    z1.vecLineTo (z1.relVec2 x y)

/-! ## Quadratic and cubic Béziers.

Note the source's statement order: the smooth-quad commands assign
`z.prevSmoothType = smoothTypeQuad` *before* calling
`implicitSmoothPoint(smoothTypeQuad)`, whereas the smooth-cube commands
compute `implicitSmoothPoint(smoothTypeCube)` first. -/

/-- `AbsSmoothQuadTo(x, y)` -/
def AbsSmoothQuadTo (z : Rasterizer) (x y : ℚ) : Rasterizer :=
  if z.disabled then z
  else
    let z1 := { z with prevSmoothType := smoothTypeQuad }
    let z2 := { z1 with prevSmoothPoint := z1.implicitSmoothPoint smoothTypeQuad }
    z2.vecQuadTo z2.prevSmoothPoint (z2.absVec2 x y)

/-- `RelSmoothQuadTo(x, y)` -/
def RelSmoothQuadTo (z : Rasterizer) (x y : ℚ) : Rasterizer :=
  if z.disabled then z
  else
    let z1 := { z with prevSmoothType := smoothTypeQuad }
    let z2 := { z1 with prevSmoothPoint := z1.implicitSmoothPoint smoothTypeQuad }
    z2.vecQuadTo z2.prevSmoothPoint (z2.relVec2 x y)

/-- `AbsQuadTo(x1, y1, x, y)` -/
def AbsQuadTo (z : Rasterizer) (x1 y1 x y : ℚ) : Rasterizer :=
  if z.disabled then z
  else
    let z2 := { z with prevSmoothType := smoothTypeQuad,
                       prevSmoothPoint := z.absVec2 x1 y1 }
    z2.vecQuadTo z2.prevSmoothPoint (z2.absVec2 x y)

/-- `RelQuadTo(x1, y1, x, y)` -/
def RelQuadTo (z : Rasterizer) (x1 y1 x y : ℚ) : Rasterizer :=
  if z.disabled then z
  else
    let z2 := { z with prevSmoothType := smoothTypeQuad,
                       prevSmoothPoint := z.relVec2 x1 y1 }
    z2.vecQuadTo z2.prevSmoothPoint (z2.relVec2 x y)

/-- `AbsSmoothCubeTo(x2, y2, x, y)` -/
def AbsSmoothCubeTo (z : Rasterizer) (x2 y2 x y : ℚ) : Rasterizer :=
  if z.disabled then z
  else
    let p1 := z.implicitSmoothPoint smoothTypeCube
    let z2 := { z with prevSmoothType := smoothTypeCube,
                       prevSmoothPoint := z.absVec2 x2 y2 }
    z2.vecCubeTo p1 z2.prevSmoothPoint (z2.absVec2 x y)

/-- `RelSmoothCubeTo(x2, y2, x, y)` -/
def RelSmoothCubeTo (z : Rasterizer) (x2 y2 x y : ℚ) : Rasterizer :=
  if z.disabled then z
  else
    let p1 := z.implicitSmoothPoint smoothTypeCube
    let z2 := { z with prevSmoothType := smoothTypeCube,
                       prevSmoothPoint := z.relVec2 x2 y2 }
    z2.vecCubeTo p1 z2.prevSmoothPoint (z2.relVec2 x y)

/-- `AbsCubeTo(x1, y1, x2, y2, x, y)` -/
def AbsCubeTo (z : Rasterizer) (x1 y1 x2 y2 x y : ℚ) : Rasterizer :=
  if z.disabled then z
  else
    let z2 := { z with prevSmoothType := smoothTypeCube,
                       prevSmoothPoint := z.absVec2 x2 y2 }
    z2.vecCubeTo (z2.absVec2 x1 y1) z2.prevSmoothPoint (z2.absVec2 x y)

/-- `RelCubeTo(x1, y1, x2, y2, x, y)` -/
def RelCubeTo (z : Rasterizer) (x1 y1 x2 y2 x y : ℚ) : Rasterizer :=
  if z.disabled then z
  else
    let z2 := { z with prevSmoothType := smoothTypeCube,
                       prevSmoothPoint := z.relVec2 x2 y2 }
    z2.vecCubeTo (z2.relVec2 x1 y1) z2.prevSmoothPoint (z2.relVec2 x y)

end Rasterizer

/-! ## Elliptic arcs -/

/-- The transcendental operations of `math` used by the arc converter,
abstracted (IEEE versions are not representable over `ℚ`). -/
structure TrigOps where
  cos : ℚ → ℚ
  sin : ℚ → ℚ
  sqrt : ℚ → ℚ
  acos : ℚ → ℚ
  pi : ℚ

/-- A trivial interpretation of the transcendentals, used for concrete runs
that never reach them. -/
def trivTrig : TrigOps := ⟨fun _ => 0, fun _ => 0, fun _ => 0, fun _ => 0, 0⟩

/-- Go `math.Ceil` followed by conversion to `int`. -/
def ratCeil (q : ℚ) : ℤ := -((-q).floor)

/-- `angle(ux, uy, vx, vy)`: the signed angle between two vectors. -/
def angle (t : TrigOps) (ux uy vx vy : ℚ) : ℚ :=
  let uNorm := t.sqrt (ux * ux + uy * uy)
  let vNorm := t.sqrt (vx * vx + vy * vy)
  let norm := uNorm * vNorm
  let cos := (ux * vx + uy * vy) / norm
  let ret := if cos ≤ -1 then t.pi else if 1 ≤ cos then 0 else t.acos cos
  if ux * vy < uy * vx then -ret else ret

namespace Rasterizer

/-- `arcSegmentTo(cx, cy, theta1, theta2, rx, ry, cosPhi, sinPhi)`:
approximate one arc segment by a cubic Bézier. -/
def arcSegmentTo (t : TrigOps) (z : Rasterizer)
    (cx cy theta1 theta2 rx ry cosPhi sinPhi : ℚ) : Rasterizer :=
  let halfDeltaTheta := (theta2 - theta1) * (1/2)
  let q := t.sin (halfDeltaTheta * (1/2))
  let tt := (8 * q * q) / (3 * t.sin halfDeltaTheta)
  let cos1 := t.cos theta1
  let sin1 := t.sin theta1
  let cos2 := t.cos theta2
  let sin2 := t.sin theta2
  let x1 := rx * (cos1 - tt * sin1)
  let y1 := ry * (sin1 + tt * cos1)
  let x2 := rx * (cos2 + tt * sin2)
  let y2 := ry * (sin2 - tt * cos2)
  let x3 := rx * cos2
  let y3 := ry * sin2
  z.vecCubeTo
    (z.absX (cx + cosPhi * x1 - sinPhi * y1), z.absY (cy + sinPhi * x1 + cosPhi * y1))
    (z.absX (cx + cosPhi * x2 - sinPhi * y2), z.absY (cy + sinPhi * x2 + cosPhi * y2))
    (z.absX (cx + cosPhi * x3 - sinPhi * y3), z.absY (cy + sinPhi * x3 + cosPhi * y3))

/-- The final loop of `AbsArcTo`: `n` equal-angle `arcSegmentTo` calls. -/
def arcSegments (t : TrigOps) (z : Rasterizer)
    (cx cy theta1 deltaTheta rx ry cosPhi sinPhi : ℚ) (n : ℕ) : Rasterizer :=
  (List.range n).foldl
    (fun zz (i : ℕ) =>
      zz.arcSegmentTo t cx cy
        (theta1 + deltaTheta * (i : ℚ) / (n : ℚ))
        (theta1 + deltaTheta * ((i : ℚ) + 1) / (n : ℚ))
        rx ry cosPhi sinPhi)
    z

/-- `AbsArcTo(rx, ry, xAxisRotation, largeArc, sweep, x, y)` -/
def AbsArcTo (t : TrigOps) (z : Rasterizer) (rx ry xAxisRot : ℚ)
    (largeArc sweep : Bool) (x y : ℚ) : Rasterizer :=
  if z.disabled then z
  else
    let z := { z with prevSmoothType := smoothTypeNone }
    let rxA := |rx|
    let ryA := |ry|
    if ¬(0 < rxA ∧ 0 < ryA) then z.vecLineTo (x, y)
    else
      let x1 := z.unabsX z.pen.1
      let y1 := z.unabsY z.pen.2
      let x2 := x
      let y2 := y
      let phi := 2 * t.pi * xAxisRot
      let halfDx := (x1 - x2) / 2
      let halfDy := (y1 - y2) / 2
      let cosPhi := t.cos phi
      let sinPhi := t.sin phi
      let x1p := cosPhi * halfDx + sinPhi * halfDy
      let y1p := -sinPhi * halfDx + cosPhi * halfDy
      let x1pSq := x1p * x1p
      let y1pSq := y1p * y1p
      let radiiCheck := x1pSq / (rxA * rxA) + y1pSq / (ryA * ryA)
      let rxB := if 1 < radiiCheck then rxA * t.sqrt radiiCheck else rxA
      let ryB := if 1 < radiiCheck then ryA * t.sqrt radiiCheck else ryA
      let rxSq := rxB * rxB
      let rySq := ryB * ryB
      let denom := rxSq * y1pSq + rySq * x1pSq
      let a := rxSq * rySq / denom - 1
      let step2a := if 0 < a then t.sqrt a else 0
      let step2 := if largeArc = sweep then -step2a else step2a
      let cxp := step2 * rxB * y1p / ryB
      let cyp := -step2 * ryB * x1p / rxB
      let cx := cosPhi * cxp - sinPhi * cyp + (x1 + x2) / 2
      let cy := sinPhi * cxp + cosPhi * cyp + (y1 + y2) / 2
      let ax := (x1p - cxp) / rxB
      let ay := (y1p - cyp) / ryB
      let bx := (-x1p - cxp) / rxB
      let bby := (-y1p - cyp) / ryB
      let theta1 := angle t 1 0 ax ay
      let dt0 := angle t ax ay bx bby
      let deltaTheta :=
        if sweep then (if dt0 < 0 then dt0 + 2 * t.pi else dt0)
        else (if 0 < dt0 then dt0 - 2 * t.pi else dt0)
      let n := (ratCeil (|deltaTheta| / (t.pi / 2 + 1/1000))).toNat
      arcSegments t z cx cy theta1 deltaTheta rxB ryB cosPhi sinPhi n

/-- `RelArcTo(rx, ry, xAxisRotation, largeArc, sweep, x, y)` -/
def RelArcTo (t : TrigOps) (z : Rasterizer) (rx ry xAxisRot : ℚ)
    (largeArc sweep : Bool) (x y : ℚ) : Rasterizer :=
  let a := z.relVec2 x y
  z.AbsArcTo t rx ry xAxisRot largeArc sweep (z.unabsX a.1) (z.unabsY a.2)

end Rasterizer

/-! ## Command sequences

The decoder drives the rasterizer through the public command surface; a
`Cmd` is one invocation, `step` its effect, `run` a whole sequence. -/

/-- One decoder-issued command. -/
inductive Cmd where
  | setDstImage (dstBound : Bool) (r : Rect) (op : DrawOp) : Cmd
  | reset (m : Metadata) : Cmd
  | setCSel (v : ℕ) : Cmd
  | setNSel (v : ℕ) : Cmd
  | setCReg (adj : ℕ) (incr : Bool) (c : ColorResolve) : Cmd
  | setNReg (adj : ℕ) (incr : Bool) (f : ℚ) : Cmd
  | setLOD (l0 l1 : FVal) : Cmd
  | startPath (adj : ℕ) (x y : ℚ) : Cmd
  | closePathEndPath : Cmd
  | closePathAbsMoveTo (x y : ℚ) : Cmd
  | closePathRelMoveTo (x y : ℚ) : Cmd
  | absHLineTo (x : ℚ) : Cmd
  | relHLineTo (x : ℚ) : Cmd
  | absVLineTo (y : ℚ) : Cmd
  | relVLineTo (y : ℚ) : Cmd
  | absLineTo (x y : ℚ) : Cmd
  | relLineTo (x y : ℚ) : Cmd
  | absSmoothQuadTo (x y : ℚ) : Cmd
  | relSmoothQuadTo (x y : ℚ) : Cmd
  | absQuadTo (x1 y1 x y : ℚ) : Cmd
  | relQuadTo (x1 y1 x y : ℚ) : Cmd
  | absSmoothCubeTo (x2 y2 x y : ℚ) : Cmd
  | relSmoothCubeTo (x2 y2 x y : ℚ) : Cmd
  | absCubeTo (x1 y1 x2 y2 x y : ℚ) : Cmd
  | relCubeTo (x1 y1 x2 y2 x y : ℚ) : Cmd
  | absArcTo (rx ry xAxisRot : ℚ) (largeArc sweep : Bool) (x y : ℚ) : Cmd
  | relArcTo (rx ry xAxisRot : ℚ) (largeArc sweep : Bool) (x y : ℚ) : Cmd

/-- Is the command a `Reset`? -/
def Cmd.isReset : Cmd → Bool
  | .reset _ => true
  | _ => false

/-- Effect of one command on the rasterizer. -/
def step (t : TrigOps) (c : Cmd) (z : Rasterizer) : Rasterizer :=
  match c with
  | .setDstImage dstBound r op => z.SetDstImage dstBound r op
  | .reset m => z.Reset m
  | .setCSel v => z.SetCSel v
  | .setNSel v => z.SetNSel v
  | .setCReg adj incr c => z.SetCReg adj incr c
  | .setNReg adj incr f => z.SetNReg adj incr f
  | .setLOD l0 l1 => z.SetLOD l0 l1
  | .startPath adj x y => z.StartPath adj x y
  | .closePathEndPath => z.ClosePathEndPath
  | .closePathAbsMoveTo x y => z.ClosePathAbsMoveTo x y
  | .closePathRelMoveTo x y => z.ClosePathRelMoveTo x y
  | .absHLineTo x => z.AbsHLineTo x
  | .relHLineTo x => z.RelHLineTo x
  | .absVLineTo y => z.AbsVLineTo y
  | .relVLineTo y => z.RelVLineTo y
  | .absLineTo x y => z.AbsLineTo x y
  | .relLineTo x y => z.RelLineTo x y
  | .absSmoothQuadTo x y => z.AbsSmoothQuadTo x y
  | .relSmoothQuadTo x y => z.RelSmoothQuadTo x y
  | .absQuadTo x1 y1 x y => z.AbsQuadTo x1 y1 x y
  | .relQuadTo x1 y1 x y => z.RelQuadTo x1 y1 x y
  | .absSmoothCubeTo x2 y2 x y => z.AbsSmoothCubeTo x2 y2 x y
  | .relSmoothCubeTo x2 y2 x y => z.RelSmoothCubeTo x2 y2 x y
  | .absCubeTo x1 y1 x2 y2 x y => z.AbsCubeTo x1 y1 x2 y2 x y
  | .relCubeTo x1 y1 x2 y2 x y => z.RelCubeTo x1 y1 x2 y2 x y
  | .absArcTo rx ry rot la sw x y => z.AbsArcTo t rx ry rot la sw x y
  | .relArcTo rx ry rot la sw x y => z.RelArcTo t rx ry rot la sw x y

/-- Run a command sequence. -/
def run (t : TrigOps) (cmds : List Cmd) (z : Rasterizer) : Rasterizer :=
  cmds.foldl (fun zz c => step t c zz) z

/-! ## Trace observations -/

/-- Number of compositing-operator latches (`z.z.DrawOp = ...`) in a trace. -/
def latchCount (tr : List Event) : ℕ :=
  tr.countP fun e => match e with | .setDrawOp _ => true | _ => false

/-- Number of `Draw` calls in a trace. -/
def drawCount (tr : List Event) : ℕ :=
  tr.countP fun e => match e with | .draw _ _ => true | _ => false

/-- Modelled from the spec: the coverage rasterizer's `Draw(dst, r, src, sp)`
(an external collaborator) writes only pixels of `dst` inside `r`; `paintAt`
is the composited value it would store at a pixel.  An empty rectangle hence
leaves every pixel unchanged. -/
def applyDraw (paintAt : ℤ × ℤ → RGBA) (r : Rect) (dst : ℤ × ℤ → RGBA) :
    ℤ × ℤ → RGBA :=
  fun p => if r.containsB p then paintAt p else dst p

/-! ## The spec-side gradient-validity predicate

The gradient-initialization claim is compared against this predicate, which
is written from the specification text: every stop color valid
premultiplied, every offset within `[0, 1]`, offsets strictly increasing. -/

/-- Spec-side validity of the `nStops` register pairs starting at
`cBase` / `nBase`. -/
def specGradientValid (cReg : Fin 64 → RGBA) (nReg : Fin 64 → ℚ)
    (cBase nBase nStops : ℕ) : Prop :=
  (∀ k < nStops, validAlphaPremulColor (cReg (m64 (cBase + k))) = true) ∧
  (∀ k < nStops, 0 ≤ nReg (m64 (nBase + k)) ∧ nReg (m64 (nBase + k)) ≤ 1) ∧
  (∀ k, k + 1 < nStops → nReg (m64 (nBase + k)) < nReg (m64 (nBase + k + 1)))

/-! ## Concrete inputs for the concrete-input theorems -/

/-- Metadata whose palette colors are malformed: `R = 32 > A = 16`, and not a
gradient descriptor since `A ≠ 0`. -/
def mdMal : Metadata := ⟨-32, -32, 32, 32, fun _ => ⟨32, 0, 0, 16⟩⟩

/-- The state right after `Reset(mdMal)` from the zero value. -/
def zMal : Rasterizer := initial.Reset mdMal

/-- Metadata with an opaque-black palette. -/
def mdC2 : Metadata := ⟨-32, -32, 32, 32, fun _ => ⟨0, 0, 0, 255⟩⟩

/-- A state with a bound destination image whose rectangle is empty, mid-path
(`StartPath` accepted and the path is enabled). -/
def zC2 : Rasterizer :=
  ((initial.SetDstImage true Rect.zero DrawOp.over).Reset mdC2).StartPath 0 0 0

/-- Metadata with an opaque-black palette. -/
def mdC3 : Metadata := ⟨-32, -32, 32, 32, fun _ => ⟨0, 0, 0, 255⟩⟩

/-- A command sequence whose first `StartPath` is LOD-disabled and whose
second `StartPath` is enabled. -/
def latchCmds : List Cmd :=
  [Cmd.setLOD (FVal.fin 100) (FVal.fin 200), Cmd.startPath 0 0 0,
   Cmd.setLOD (FVal.fin 0) FVal.pinf, Cmd.startPath 0 0 0]

/-- The prefix of `latchCmds` through the first `StartPath`. -/
def latchCmdsPrefix : List Cmd :=
  [Cmd.setLOD (FVal.fin 100) (FVal.fin 200), Cmd.startPath 0 0 0]

/-- Metadata with an opaque-black palette. -/
def mdC4 : Metadata := ⟨-32, -32, 32, 32, fun _ => ⟨0, 0, 0, 255⟩⟩

/-- A concrete already-resolved color operand. -/
def resolveC4 : ColorResolve := fun _ _ => ⟨1, 2, 3, 4⟩

/-- A state whose color selector sits at the top of the 6-bit range. -/
def zC4 : Rasterizer := (initial.Reset mdC4).SetCSel 63

/-- Metadata with an opaque-black palette. -/
def mdC5 : Metadata := ⟨-32, -32, 32, 32, fun _ => ⟨0, 0, 0, 255⟩⟩

/-- An enabled mid-path state: view box `(-32,-32)-(32,32)` onto a
`64 × 64` destination, pen at pixel `(32, 32)`, `prevSmoothType = None`,
`prevSmoothPoint = (0, 0)`. -/
def zC5 : Rasterizer :=
  ((initial.SetDstImage true ⟨0, 0, 64, 64⟩ DrawOp.over).Reset mdC5).StartPath 0 0 0

/-- Metadata whose palette slot colors are linear-gradient descriptors with
zero stops (`A = 0`, `B = 0x80`). -/
def mdC6 : Metadata := ⟨-32, -32, 32, 32, fun _ => ⟨0, 0, 0x80, 0⟩⟩

/-- The state right after `Reset(mdC6)`. -/
def zC6 : Rasterizer := initial.Reset mdC6

/-- Metadata with an opaque-black palette. -/
def mdC7 : Metadata := ⟨-32, -32, 32, 32, fun _ => ⟨0, 0, 0, 255⟩⟩

/-- A state whose LOD window `[100, 200)` excludes the destination height. -/
def zC7 : Rasterizer := (initial.Reset mdC7).SetLOD (FVal.fin 100) (FVal.fin 200)

/-- Metadata with an opaque-black palette. -/
def mdC8 : Metadata := ⟨-32, -32, 32, 32, fun _ => ⟨0, 0, 0, 255⟩⟩

/-- An enabled mid-path state for the degenerate-arc theorem. -/
def zC8 : Rasterizer :=
  ((initial.SetDstImage true ⟨0, 0, 64, 64⟩ DrawOp.over).Reset mdC8).StartPath 0 0 0

/-- Metadata whose palette slot colors are zero-stop gradient descriptors. -/
def mdC10 : Metadata := ⟨-32, -32, 32, 32, fun _ => ⟨0, 0, 0x80, 0⟩⟩

/-- The state right after `Reset(mdC10)`. -/
def zC10 : Rasterizer := initial.Reset mdC10

/-- Metadata with an opaque-black palette, for register-write witnesses. -/
def mdC1W : Metadata := ⟨-32, -32, 32, 32, fun _ => ⟨0, 0, 0, 255⟩⟩

/-! # Theorems -/

/-- The 6-bit mask is reduction mod 64. -/
theorem land63_eq_mod (n : ℕ) : n &&& 63 = n % 64 := by
  have h := Nat.and_pow_two_sub_one_eq_mod n 6
  norm_num at h
  exact h

/-- **C9.** After `Reset(m)`, the color registers equal the palette, the
scalar registers are zero, both selectors are zero, the LOD bounds are
`(0, +∞)`, and `firstStartPath` is true. -/
theorem claim9_reset_state (z : Rasterizer) (m : Metadata) :
    (z.Reset m).cReg = m.palette ∧ (∀ i, (z.Reset m).nReg i = 0) ∧
    (z.Reset m).cSel = 0 ∧ (z.Reset m).nSel = 0 ∧
    (z.Reset m).lod0 = FVal.fin 0 ∧ (z.Reset m).lod1 = FVal.pinf ∧
    (z.Reset m).firstStartPath = true :=
  ⟨rfl, fun _ => rfl, rfl, rfl, rfl, rfl, rfl⟩

/-- **C4 (counterexample).** From `c_sel = 63`, a `SetCReg` with the
increment flag stores `c_sel = 64`: the stored selector is *not*
`(63 + 1) mod 64 = 0` and is *not* in `[0, 64)`. -/
theorem claim4_counterexample :
    zC4.cSel = 63 ∧ (zC4.SetCReg 0 true resolveC4).cSel = 64 ∧
    ¬((zC4.SetCReg 0 true resolveC4).cSel < 64) := by decide

/-- **C4 (amended).** `SetCReg(adj, incr, c)` writes exactly the slot
`(c_sel_pre − adj) mod 64`, leaving other slots unchanged; afterwards the
stored selector is `(c_sel_pre + (incr ? 1 : 0)) mod 256` — an 8-bit value
that is congruent to `c_sel_pre + incr` *mod 64* (reads always re-mask) but
need not itself lie in `[0, 64)`.  Symmetrically for `SetNReg`. -/
theorem claim4_amended (z : Rasterizer) (adj : ℕ) (incr : Bool)
    (c : ColorResolve) (f : ℚ)
    (hc : z.cSel < 256) (hn : z.nSel < 256) (ha : adj < 256) :
    ((z.SetCReg adj incr c).cReg (m64 (u8sub z.cSel adj)) = c z.palette z.cReg) ∧
    (∀ j : Fin 64, j ≠ m64 (u8sub z.cSel adj) →
      (z.SetCReg adj incr c).cReg j = z.cReg j) ∧
    (((m64 (u8sub z.cSel adj) : Fin 64) : ℕ) = (((z.cSel : ℤ) - adj) % 64).toNat) ∧
    ((z.SetCReg adj incr c).cSel = (z.cSel + (if incr then 1 else 0)) % 256) ∧
    ((z.SetCReg adj incr c).cSel % 64 = (z.cSel + (if incr then 1 else 0)) % 64) ∧
    ((z.SetCReg adj incr c).cSel < 256) ∧
    ((z.SetNReg adj incr f).nReg (m64 (u8sub z.nSel adj)) = f) ∧
    (∀ j : Fin 64, j ≠ m64 (u8sub z.nSel adj) →
      (z.SetNReg adj incr f).nReg j = z.nReg j) ∧
    ((z.SetNReg adj incr f).nSel = (z.nSel + (if incr then 1 else 0)) % 256) ∧
    ((z.SetNReg adj incr f).nSel % 64 = (z.nSel + (if incr then 1 else 0)) % 64) ∧
    ((z.SetNReg adj incr f).nSel < 256) := by
  refine ⟨?_, ?_, ?_, ?_, ?_, ?_, ?_, ?_, ?_, ?_, ?_⟩
  · simp [Rasterizer.SetCReg]
  · intro j hj
    simp [Rasterizer.SetCReg, Function.update_noteq hj]
  · show u8sub z.cSel adj &&& 63 = _
    rw [land63_eq_mod]
    unfold u8sub
    omega
  · rcases incr with _ | _ <;> simp [Rasterizer.SetCReg]
    omega
  · rcases incr with _ | _ <;> simp [Rasterizer.SetCReg] <;> omega
  · rcases incr with _ | _ <;> simp [Rasterizer.SetCReg] <;> omega
  · simp [Rasterizer.SetNReg]
  · intro j hj
    simp [Rasterizer.SetNReg, Function.update_noteq hj]
  · rcases incr with _ | _ <;> simp [Rasterizer.SetNReg]
    omega
  · rcases incr with _ | _ <;> simp [Rasterizer.SetNReg] <;> omega
  · rcases incr with _ | _ <;> simp [Rasterizer.SetNReg] <;> omega

/-- **C4 (witness).** The amended register-write theorem applied at the
concrete state `zC4` (selector 63), `adj = 0`, `incr = true`. -/
theorem claim4_witness :
    (zC4.cSel < 256 ∧ zC4.nSel < 256 ∧ (0 : ℕ) < 256) ∧
    (((zC4.SetCReg 0 true resolveC4).cReg (m64 (u8sub zC4.cSel 0))
        = resolveC4 zC4.palette zC4.cReg) ∧
     (∀ j : Fin 64, j ≠ m64 (u8sub zC4.cSel 0) →
       (zC4.SetCReg 0 true resolveC4).cReg j = zC4.cReg j) ∧
     (((m64 (u8sub zC4.cSel 0) : Fin 64) : ℕ) = (((zC4.cSel : ℤ) - 0) % 64).toNat) ∧
     ((zC4.SetCReg 0 true resolveC4).cSel = (zC4.cSel + (if true then 1 else 0)) % 256) ∧
     ((zC4.SetCReg 0 true resolveC4).cSel % 64 = (zC4.cSel + (if true then 1 else 0)) % 64) ∧
     ((zC4.SetCReg 0 true resolveC4).cSel < 256) ∧
     ((zC4.SetNReg 0 true (1/2)).nReg (m64 (u8sub zC4.nSel 0)) = 1/2) ∧
     (∀ j : Fin 64, j ≠ m64 (u8sub zC4.nSel 0) →
       (zC4.SetNReg 0 true (1/2)).nReg j = zC4.nReg j) ∧
     ((zC4.SetNReg 0 true (1/2)).nSel = (zC4.nSel + (if true then 1 else 0)) % 256) ∧
     ((zC4.SetNReg 0 true (1/2)).nSel % 64 = (zC4.nSel + (if true then 1 else 0)) % 64) ∧
     ((zC4.SetNReg 0 true (1/2)).nSel < 256)) :=
  ⟨⟨by decide, by decide, by decide⟩,
   claim4_amended zC4 0 true resolveC4 (1/2) (by decide) (by decide) (by decide)⟩

/-- `initGradient` only touches the gradient collaborator: every other
observable field of the returned state is that of the input state. -/
theorem initGradient_proj (z : Rasterizer) (rgba : RGBA) :
    (z.initGradient rgba).2.lod0 = z.lod0 ∧
    (z.initGradient rgba).2.lod1 = z.lod1 ∧
    (z.initGradient rgba).2.r = z.r ∧
    (z.initGradient rgba).2.trace = z.trace ∧
    (z.initGradient rgba).2.firstStartPath = z.firstStartPath ∧
    (z.initGradient rgba).2.disabled = z.disabled ∧
    (z.initGradient rgba).2.dstBound = z.dstBound ∧
    (z.initGradient rgba).2.drawOp = z.drawOp ∧
    (z.initGradient rgba).2.pen = z.pen := by
  unfold Rasterizer.initGradient
  rcases hg : gradientStops z.cReg z.nReg (rgba.g &&& 63) (rgba.b &&& 63) 0
      (rgba.r &&& 63) none with _ | stops <;>
    simp [hg] <;> split <;> simp

/-- The `disabled` flag after `StartPath` is the paint-step flag OR-ed with
the negated LOD gate. -/
theorem startPath_disabled_eq (z : Rasterizer) (adj : ℕ) (x y : ℚ) :
    (z.StartPath adj x y).disabled
      = ((z.startPathPaint adj).disabled || !(z.startPathPaint adj).lodGate) := by
  unfold Rasterizer.StartPath
  dsimp only
  split
  · rfl
  · next h =>
    simp only [Rasterizer.vecMoveTo, Rasterizer.vecReset]
    simp only [Bool.not_eq_true] at h
    split <;> simpa using h

/-- The fill after `StartPath` is the paint-step fill. -/
theorem startPath_fill_eq (z : Rasterizer) (adj : ℕ) (x y : ℚ) :
    (z.StartPath adj x y).fill = (z.startPathPaint adj).fill := by
  unfold Rasterizer.StartPath
  dsimp only
  split
  · rfl
  · simp only [Rasterizer.vecMoveTo, Rasterizer.vecReset]
    split <;> rfl

/-- **C1 (counterexample).** With every palette color malformed
(`R = 32 > A = 16`, not a gradient descriptor) and the previous `disabled`
false, `StartPath` leaves `disabled = false` — the malformed color does
*not* disable the path, and the flag is carried over rather than
recomputed. -/
theorem claim1_counterexample :
    validAlphaPremulColor (zMal.selColor 0) = false ∧
    (zMal.selColor 0).a ≠ 0 ∧
    zMal.disabled = false ∧
    (zMal.StartPath 0 0 0).disabled = false := by decide

/-- **C1 (amended).** If the color register read at `(c_sel − adj) mod 64`
is malformed (neither valid premultiplied nor a gradient descriptor), then
`StartPath` does not assign the `disabled` flag in the paint step: the flag
carried over from the previous path is merely OR-ed with the negated LOD
gate.  (Only the valid-color and gradient branches recompute it.) -/
theorem claim1_amended (z : Rasterizer) (adj : ℕ) (x y : ℚ)
    (hv : validAlphaPremulColor (z.selColor adj) = false)
    (hg : ¬((z.selColor adj).a = 0 ∧ (z.selColor adj).b &&& 0x80 ≠ 0)) :
    (z.StartPath adj x y).disabled = (z.disabled || !z.lodGate) := by
  have hz1 : z.startPathPaint adj = { z with flatColor := z.selColor adj } := by
    unfold Rasterizer.startPathPaint
    simp [hv, hg]
  rw [startPath_disabled_eq, hz1]
  rfl

/-- **C1 (witness).** The amended malformed-color theorem applied at the
concrete state `zMal`. -/
theorem claim1_witness :
    (validAlphaPremulColor (zMal.selColor 0) = false ∧
      ¬((zMal.selColor 0).a = 0 ∧ (zMal.selColor 0).b &&& 0x80 ≠ 0)) ∧
    (zMal.StartPath 0 0 0).disabled = (zMal.disabled || !zMal.lodGate) :=
  ⟨⟨by decide, by decide⟩, claim1_amended zMal 0 0 0 (by decide) (by decide)⟩

/-- **C7.** For a `StartPath` whose resolved paint is valid premultiplied
with nonzero alpha, the path is disabled exactly when the destination
height `h = z.r.Dy()` fails `lod0 ≤ h < lod1`; and the gate is insensitive
to the destination width (any rectangle with the same height gives the same
flag). -/
theorem claim7_lod (z : Rasterizer) (adj : ℕ) (x y : ℚ)
    (hv : validAlphaPremulColor (z.selColor adj) = true)
    (ha : (z.selColor adj).a ≠ 0) :
    ((z.StartPath adj x y).disabled = !z.lodGate) ∧
    (z.lodGate = (FVal.leb z.lod0 (FVal.fin (z.r.dy : ℚ))
      && FVal.ltb (FVal.fin (z.r.dy : ℚ)) z.lod1)) ∧
    (∀ r2 : Rect, r2.dy = z.r.dy →
      ({ z with r := r2 }.StartPath adj x y).disabled
        = (z.StartPath adj x y).disabled) := by
  have hz1 : z.startPathPaint adj
      = { z with flatColor := z.selColor adj, fill := Fill.flat,
                 disabled := false } := by
    unfold Rasterizer.startPathPaint
    simp [hv, ha]
  refine ⟨?_, rfl, ?_⟩
  · rw [startPath_disabled_eq, hz1]
    simp [Rasterizer.lodGate]
  · intro r2 h2
    have hz2 : Rasterizer.startPathPaint { z with r := r2 } adj
        = { z with r := r2, flatColor := z.selColor adj, fill := Fill.flat,
                   disabled := false } := by
      unfold Rasterizer.startPathPaint
      simp [Rasterizer.selColor] at hv ha ⊢
      simp [hv, ha]
    rw [startPath_disabled_eq, startPath_disabled_eq, hz1, hz2]
    have h2q : ((r2.maxY : ℚ) - r2.minY) = ((z.r.maxY : ℚ) - z.r.minY) := by
      simp only [Rect.dy] at h2
      have h3 := congrArg (fun k : ℤ => (k : ℚ)) h2
      push_cast at h3
      exact h3
    simp [Rasterizer.lodGate, Rect.dy]
    rw [h2q]

/-- **C7 (witness).** The LOD-gate theorem applied at the concrete state
`zC7` (window `[100, 200)`, destination height 0: the path is disabled). -/
theorem claim7_witness :
    (validAlphaPremulColor (zC7.selColor 0) = true ∧ (zC7.selColor 0).a ≠ 0) ∧
    (((zC7.StartPath 0 0 0).disabled = !zC7.lodGate) ∧
     (zC7.lodGate = (FVal.leb zC7.lod0 (FVal.fin (zC7.r.dy : ℚ))
       && FVal.ltb (FVal.fin (zC7.r.dy : ℚ)) zC7.lod1)) ∧
     (∀ r2 : Rect, r2.dy = zC7.r.dy →
       ({ zC7 with r := r2 }.StartPath 0 0 0).disabled
         = (zC7.StartPath 0 0 0).disabled)) :=
  ⟨⟨by decide, by decide⟩, claim7_lod zC7 0 0 0 (by decide) (by decide)⟩

/-- **C2 (counterexample).** In a state with a bound destination image whose
rectangle is empty and an enabled path, `ClosePathEndPath` *does* invoke the
coverage rasterizer's draw call (the draw count grows by one), contrary to
the claim that it is skipped whenever the rectangle is empty. -/
theorem claim2_counterexample :
    zC2.disabled = false ∧ zC2.dstBound = true ∧ zC2.r.isEmpty = true ∧
    drawCount zC2.ClosePathEndPath.trace = drawCount zC2.trace + 1 := by decide

/-- **C2 (amended).** `ClosePathEndPath` invokes the draw call iff the path
is enabled and a destination image is bound — the emptiness of the
rectangle is *not* consulted; however a draw over an empty rectangle writes
no pixel, so the destination raster is still left unchanged whenever the
rectangle is empty (and trivially when no destination is bound, since then
no draw call happens). -/
theorem claim2_amended (z : Rasterizer) :
    (drawCount z.ClosePathEndPath.trace = drawCount z.trace +
      (if z.disabled = false ∧ z.dstBound = true then 1 else 0)) ∧
    (∀ (paintAt dst : ℤ × ℤ → RGBA), z.r.isEmpty = true →
      applyDraw paintAt z.r dst = dst) := by
  constructor
  · unfold Rasterizer.ClosePathEndPath Rasterizer.vecClosePath Rasterizer.vecDraw
    rcases hd : z.disabled <;> rcases hb : z.dstBound <;>
      simp [hd, hb, drawCount, List.countP_append, List.countP_cons]
  · intro paintAt dst hE
    funext p
    have hc : z.r.containsB p = false := by
      simp only [Rect.isEmpty, Bool.or_eq_true, decide_eq_true_eq] at hE
      simp only [Rect.containsB, Bool.and_eq_true, decide_eq_true_eq,
        Bool.and_eq_false_iff, decide_eq_false_iff_not]
      omega
    simp [applyDraw, hc]

/-- **C2 (witness).** The amended theorem applied at the concrete state
`zC2` (bound destination, empty rectangle, enabled path). -/
theorem claim2_witness :
    zC2.r.isEmpty = true ∧
    (drawCount zC2.ClosePathEndPath.trace = drawCount zC2.trace +
      (if zC2.disabled = false ∧ zC2.dstBound = true then 1 else 0)) ∧
    (applyDraw (fun _ => ⟨0, 0, 0, 0⟩) zC2.r (fun _ => ⟨9, 9, 9, 9⟩)
      = fun _ => ⟨9, 9, 9, 9⟩) :=
  ⟨by decide, (claim2_amended zC2).1, (claim2_amended zC2).2 _ _ (by decide)⟩

/-- **C5 (code bug, evaluation).** At the concrete state `zC5` the previous
smooth kind is `None`, the pen is at `(32, 32)` and the stale
`prevSmoothPoint` is `(0, 0)`; yet `AbsSmoothQuadTo(10, 10)` emits the quad
control point `(64, 64) = 2·pen − prevSmoothPoint` instead of the pen
`(32, 32)` required when the previous kind differs — because the smooth-quad
commands assign `prevSmoothType = smoothTypeQuad` *before* calling
`implicitSmoothPoint`, so the kind comparison there always succeeds,
contradicting the SVG rule quoted in the source's own doc comment. -/
theorem claim5_code_eval :
    zC5.prevSmoothType = smoothTypeNone ∧
    zC5.pen = (32, 32) ∧
    zC5.prevSmoothPoint = (0, 0) ∧
    (zC5.AbsSmoothQuadTo 10 10).trace
      = zC5.trace ++ [Event.quadTo (64, 64) (42, 42)] ∧
    ((64, 64) : Vec2) ≠ zC5.pen := by
  refine ⟨by decide, ?_, by decide, ?_, ?_⟩ <;>
    norm_num [zC5, mdC5, initial, Rasterizer.SetDstImage, Rasterizer.Reset,
      Rasterizer.recalcTransform, Rasterizer.StartPath, Rasterizer.startPathPaint,
      Rasterizer.selColor, validAlphaPremulColor, Rasterizer.lodGate, FVal.leb,
      FVal.ltb, Rasterizer.vecReset, Rasterizer.vecMoveTo, Rasterizer.absVec2,
      Rasterizer.absX, Rasterizer.absY, m64, u8sub, Rect.dy, Rect.dx,
      Rect.isEmpty, Rect.zero, smoothTypeNone, smoothTypeQuad,
      Rasterizer.AbsSmoothQuadTo, Rasterizer.implicitSmoothPoint,
      Rasterizer.vecQuadTo, Prod.ext_iff]

/-- A fold of cube-emitting steps only appends `CubeTo` events. -/
theorem foldl_cubeTo_trace (f : Rasterizer → ℕ → Rasterizer)
    (hf : ∀ z i, ∃ c1 c2 p, f z i = z.vecCubeTo c1 c2 p) :
    ∀ (l : List ℕ) (z0 : Rasterizer) (tr : List Event), z0.trace = tr →
      ∃ d, (l.foldl f z0).trace = tr ++ d ∧ ∀ e ∈ d, e.isCubeTo = true := by
  intro l
  induction l with
  | nil => exact fun z0 tr h0 => ⟨[], by simp [h0], by simp⟩
  | cons i l ih =>
    intro z0 tr h0
    obtain ⟨c1, c2, p, hfz⟩ := hf z0 i
    obtain ⟨d, hd, hall⟩ := ih (f z0 i) (f z0 i).trace rfl
    refine ⟨Event.cubeTo c1 c2 p :: d, ?_, ?_⟩
    · rw [List.foldl_cons, hd, hfz]
      simp [Rasterizer.vecCubeTo, h0]
    · intro e he
      rcases List.mem_cons.mp he with h | h
      · subst h; rfl
      · exact hall e h

/-- `arcSegments` appends only `CubeTo` events to the trace. -/
theorem arcSegments_trace (t : TrigOps) (z0 : Rasterizer)
    (cx cy theta1 deltaTheta rx ry cosPhi sinPhi : ℚ) (n : ℕ)
    (tr : List Event) (h0 : z0.trace = tr) :
    ∃ d, (Rasterizer.arcSegments t z0 cx cy theta1 deltaTheta rx ry cosPhi
        sinPhi n).trace = tr ++ d ∧ ∀ e ∈ d, e.isCubeTo = true := by
  unfold Rasterizer.arcSegments
  exact foldl_cubeTo_trace _ (fun zz i => ⟨_, _, _, rfl⟩) _ _ _ h0

/-- **C8.** For an enabled `AbsArcTo`: if `|rx|` or `|ry|` is not strictly
positive, exactly one straight `LineTo` is emitted and its target is the
*raw* endpoint `(x, y)` in graphic coordinates (no `absX`/`absY` transform
is applied — the documented degenerate-fallback bug); otherwise the
center-parameterization algorithm runs and emits only `CubeTo` events.
(`NaN` radii, which Go also treats as degenerate, are outside the exact
`ℚ` model.) -/
theorem claim8_arc (t : TrigOps) (z : Rasterizer) (rx ry xAxisRot : ℚ)
    (la sw : Bool) (x y : ℚ) (hd : z.disabled = false) :
    (¬(0 < |rx| ∧ 0 < |ry|) →
      (z.AbsArcTo t rx ry xAxisRot la sw x y).trace
        = z.trace ++ [Event.lineTo (x, y)] ∧
      (z.AbsArcTo t rx ry xAxisRot la sw x y).pen = (x, y)) ∧
    ((0 < |rx| ∧ 0 < |ry|) → ∃ d,
      (z.AbsArcTo t rx ry xAxisRot la sw x y).trace = z.trace ++ d ∧
      ∀ e ∈ d, e.isCubeTo = true) := by
  constructor
  · intro h
    unfold Rasterizer.AbsArcTo
    simp only [hd, Bool.false_eq_true, if_false, if_pos h]
    exact ⟨by simp [Rasterizer.vecLineTo], rfl⟩
  · intro h
    unfold Rasterizer.AbsArcTo
    simp only [hd, Bool.false_eq_true, if_false, if_neg (not_not_intro h)]
    apply arcSegments_trace
    rfl

/-- **C8 (witness).** The degenerate branch applied at the concrete state
`zC8` with `rx = 0`: one raw `LineTo (10, 10)`. -/
theorem claim8_witness :
    zC8.disabled = false ∧
    ((zC8.AbsArcTo trivTrig 0 5 0 false true 10 10).trace
       = zC8.trace ++ [Event.lineTo (10, 10)] ∧
     (zC8.AbsArcTo trivTrig 0 5 0 false true 10 10).pen = (10, 10)) :=
  ⟨by decide,
   (claim8_arc trivTrig zC8 0 5 0 false true 10 10 (by decide)).1 (by norm_num)⟩

/-- Characterization of the `initGradient` stop-validation loop: starting at
stop `i` with `rem` stops to go and previous offset `prev`, the loop
succeeds iff every remaining stop color is valid premultiplied, every
remaining offset lies in `[0, 1]`, the remaining offsets are strictly
increasing, and the first remaining offset is above `prev`. -/
theorem gradientStops_isSome_iff (cReg : Fin 64 → RGBA) (nReg : Fin 64 → ℚ)
    (cBase nBase : ℕ) :
    ∀ (rem i : ℕ) (prev : Option ℚ),
      (gradientStops cReg nReg cBase nBase i rem prev).isSome = true ↔
      ((∀ k, i ≤ k → k < i + rem →
          validAlphaPremulColor (cReg (m64 (cBase + k))) = true) ∧
       (∀ k, i ≤ k → k < i + rem →
          0 ≤ nReg (m64 (nBase + k)) ∧ nReg (m64 (nBase + k)) ≤ 1) ∧
       (∀ k, i ≤ k → k + 1 < i + rem →
          nReg (m64 (nBase + k)) < nReg (m64 (nBase + k + 1))) ∧
       (0 < rem → ltPrev prev (nReg (m64 (nBase + i))) = true)) := by
  intro rem
  induction rem with
  | zero =>
    intro i prev
    constructor
    · intro _
      exact ⟨fun k h1 h2 => absurd h2 (by omega),
             fun k h1 h2 => absurd h2 (by omega),
             fun k h1 h2 => absurd h2 (by omega),
             fun h => absurd h (by omega)⟩
    · intro _
      rfl
  | succ rem ih =>
    intro i prev
    by_cases hv : validAlphaPremulColor (cReg (m64 (cBase + i))) = true
    · by_cases hb : 0 ≤ nReg (m64 (nBase + i)) ∧ nReg (m64 (nBase + i)) ≤ 1
      · by_cases hp : ltPrev prev (nReg (m64 (nBase + i))) = true
        · have hstep : (gradientStops cReg nReg cBase nBase i (rem + 1)
              prev).isSome
              = (gradientStops cReg nReg cBase nBase (i + 1) rem
                  (some (nReg (m64 (nBase + i))))).isSome := by
            simp only [gradientStops]
            rw [if_neg (by simp [hv]), if_neg (by simp [hb, hp])]
            cases hrec : gradientStops cReg nReg cBase nBase (i + 1) rem
                (some (nReg (m64 (nBase + i)))) <;> simp
          rw [hstep, ih (i + 1) (some (nReg (m64 (nBase + i))))]
          constructor
          · rintro ⟨r1, r2, r3, r4⟩
            refine ⟨?_, ?_, ?_, fun _ => hp⟩
            · intro k h1 h2
              rcases Nat.eq_or_lt_of_le h1 with h | h
              · subst h; exact hv
              · exact r1 k (by omega) (by omega)
            · intro k h1 h2
              rcases Nat.eq_or_lt_of_le h1 with h | h
              · subst h; exact hb
              · exact r2 k (by omega) (by omega)
            · intro k h1 h2
              rcases Nat.eq_or_lt_of_le h1 with h | h
              · subst h
                have h4 := r4 (by omega)
                exact of_decide_eq_true h4
              · exact r3 k (by omega) (by omega)
          · rintro ⟨g1, g2, g3, g4⟩
            refine ⟨fun k h1 h2 => g1 k (by omega) (by omega),
                    fun k h1 h2 => g2 k (by omega) (by omega),
                    fun k h1 h2 => g3 k (by omega) (by omega), ?_⟩
            intro hrem
            exact decide_eq_true (g3 i le_rfl (by omega))
        · have hnone : gradientStops cReg nReg cBase nBase i (rem + 1) prev
              = none := by
            simp only [gradientStops]
            rw [if_neg (by simp [hv]), if_pos (by simp [hp])]
          rw [hnone]
          simp only [Option.isSome_none, Bool.false_eq_true, false_iff]
          rintro ⟨-, -, -, g4⟩
          exact hp (g4 (by omega))
      · have hnone : gradientStops cReg nReg cBase nBase i (rem + 1) prev
            = none := by
          simp only [gradientStops]
          rw [if_neg (by simp [hv]), if_pos (by simp [hb])]
        rw [hnone]
        simp only [Option.isSome_none, Bool.false_eq_true, false_iff]
        rintro ⟨-, g2, -, -⟩
        exact hb (g2 i le_rfl (by omega))
    · have hnone : gradientStops cReg nReg cBase nBase i (rem + 1) prev
          = none := by
        simp only [gradientStops]
        rw [if_pos (by simpa using hv)]
      rw [hnone]
      simp only [Option.isSome_none, Bool.false_eq_true, false_iff]
      rintro ⟨g1, -, -, -⟩
      exact hv (g1 i le_rfl (by omega))

/-- A gradient descriptor (`A = 0`, bit 7 of `B` set) is never a valid
premultiplied color. -/
theorem descriptor_not_valid (c : RGBA) (ha : c.a = 0) (hb : c.b &&& 0x80 ≠ 0) :
    validAlphaPremulColor c = false := by
  have hbne : c.b ≠ 0 := fun h0 => hb (by rw [h0]; rfl)
  simp only [validAlphaPremulColor, ha, Nat.le_zero, Bool.and_eq_false_iff,
    decide_eq_false_iff_not]
  tauto

/-- On the gradient branch of `StartPath`, the fill becomes the gradient and
the disabled flag is the negated `initGradient` result OR-ed with the
negated LOD gate. -/
theorem startPath_gradient (z : Rasterizer) (adj : ℕ) (x y : ℚ)
    (ha : (z.selColor adj).a = 0) (hb : (z.selColor adj).b &&& 0x80 ≠ 0) :
    (z.StartPath adj x y).fill = Fill.gradient ∧
    (z.StartPath adj x y).disabled
      = (!(z.initGradient (z.selColor adj)).1 || !z.lodGate) := by
  have hval := descriptor_not_valid _ ha hb
  have hz1 : z.startPathPaint adj
      = { (z.initGradient (z.selColor adj)).2 with
          flatColor := z.selColor adj, fill := Fill.gradient,
          disabled := !(z.initGradient (z.selColor adj)).1 } := by
    unfold Rasterizer.startPathPaint
    rw [if_neg (by simp [hval]), if_pos ⟨ha, hb⟩]
  obtain ⟨hl0, hl1, hr, -⟩ := initGradient_proj z (z.selColor adj)
  constructor
  · rw [startPath_fill_eq, hz1]
  · rw [startPath_disabled_eq, hz1]
    simp only [Rasterizer.lodGate, hl0, hl1, hr]

/-- **C6.** For a `StartPath` on a gradient descriptor: gradient
initialization succeeds iff every stop color is valid premultiplied, every
stop offset lies in `[0, 1]`, and the offsets are strictly increasing (the
first being compared against `−∞`, which holds vacuously); the fill becomes
the gradient, and the path is disabled exactly when initialization failed
or the (separately specified) LOD gate fails — in particular failure always
disables, and success leaves the path enabled whenever the LOD gate
passes. -/
theorem claim6_gradient (z : Rasterizer) (adj : ℕ) (x y : ℚ)
    (ha : (z.selColor adj).a = 0) (hb : (z.selColor adj).b &&& 0x80 ≠ 0) :
    ((z.initGradient (z.selColor adj)).1 = true ↔
      specGradientValid z.cReg z.nReg ((z.selColor adj).g &&& 63)
        ((z.selColor adj).b &&& 63) ((z.selColor adj).r &&& 63)) ∧
    ((z.StartPath adj x y).fill = Fill.gradient) ∧
    ((z.StartPath adj x y).disabled
      = (!(z.initGradient (z.selColor adj)).1 || !z.lodGate)) := by
  refine ⟨?_, (startPath_gradient z adj x y ha hb).1,
          (startPath_gradient z adj x y ha hb).2⟩
  have hiff : (z.initGradient (z.selColor adj)).1 = true ↔
      (gradientStops z.cReg z.nReg ((z.selColor adj).g &&& 63)
        ((z.selColor adj).b &&& 63) 0 ((z.selColor adj).r &&& 63)
        none).isSome = true := by
    unfold Rasterizer.initGradient
    dsimp only
    cases hg : gradientStops z.cReg z.nReg ((z.selColor adj).g &&& 63)
        ((z.selColor adj).b &&& 63) 0 ((z.selColor adj).r &&& 63) none with
    | none => simp [hg]
    | some stops =>
      constructor
      · intro _
        rfl
      · intro _
        dsimp only
        split <;> rfl
  rw [hiff, gradientStops_isSome_iff]
  unfold specGradientValid
  constructor
  · rintro ⟨h1, h2, h3, -⟩
    exact ⟨fun k hk => h1 k (by omega) (by omega),
           fun k hk => h2 k (by omega) (by omega),
           fun k hk => h3 k (by omega) (by omega)⟩
  · rintro ⟨h1, h2, h3⟩
    exact ⟨fun k _ hk => h1 k (by omega), fun k _ hk => h2 k (by omega),
           fun k _ hk => h3 k (by omega), fun _ => rfl⟩

/-- **C6 (witness).** The gradient-initialization theorem applied at the
concrete state `zC6` (every register a zero-stop linear descriptor). -/
theorem claim6_witness :
    ((zC6.selColor 0).a = 0 ∧ (zC6.selColor 0).b &&& 0x80 ≠ 0) ∧
    (((zC6.initGradient (zC6.selColor 0)).1 = true ↔
      specGradientValid zC6.cReg zC6.nReg ((zC6.selColor 0).g &&& 63)
        ((zC6.selColor 0).b &&& 63) ((zC6.selColor 0).r &&& 63)) ∧
     ((zC6.StartPath 0 0 0).fill = Fill.gradient) ∧
     ((zC6.StartPath 0 0 0).disabled
       = (!(zC6.initGradient (zC6.selColor 0)).1 || !zC6.lodGate))) :=
  ⟨⟨by decide, by decide⟩, claim6_gradient zC6 0 0 0 (by decide) (by decide)⟩

/-- **C10.** A gradient descriptor declaring zero stops (low 6 bits of `R`
zero) passes gradient initialization: the validation loop is vacuous,
`initGradient` succeeds, the gradient collaborator is initialized with an
empty stop list, and the path is enabled whenever the LOD gate passes
(rather than being disabled as an invalid gradient). -/
theorem claim10_zero_stops (z : Rasterizer) (adj : ℕ) (x y : ℚ)
    (ha : (z.selColor adj).a = 0) (hb : (z.selColor adj).b &&& 0x80 ≠ 0)
    (h0 : (z.selColor adj).r &&& 63 = 0) :
    ((z.initGradient (z.selColor adj)).1 = true) ∧
    ((z.initGradient (z.selColor adj)).2.gradientState.stopsOf = []) ∧
    ((z.initGradient (z.selColor adj)).2.gradientState ≠ GradientState.uninit) ∧
    ((z.StartPath adj x y).fill = Fill.gradient) ∧
    ((z.StartPath adj x y).disabled = !z.lodGate) := by
  have hcomp : (z.initGradient (z.selColor adj)).1 = true ∧
      (z.initGradient (z.selColor adj)).2.gradientState.stopsOf = [] ∧
      (z.initGradient (z.selColor adj)).2.gradientState
        ≠ GradientState.uninit := by
    unfold Rasterizer.initGradient
    dsimp only
    simp only [h0, gradientStops]
    split <;> simp [GradientState.stopsOf]
  refine ⟨hcomp.1, hcomp.2.1, hcomp.2.2, (startPath_gradient z adj x y ha hb).1, ?_⟩
  rw [(startPath_gradient z adj x y ha hb).2, hcomp.1]
  rfl

/-- **C10 (witness).** The zero-stop theorem applied at the concrete state
`zC10`. -/
theorem claim10_witness :
    ((zC10.selColor 0).a = 0 ∧ (zC10.selColor 0).b &&& 0x80 ≠ 0 ∧
      (zC10.selColor 0).r &&& 63 = 0) ∧
    (((zC10.initGradient (zC10.selColor 0)).1 = true) ∧
     ((zC10.initGradient (zC10.selColor 0)).2.gradientState.stopsOf = []) ∧
     ((zC10.initGradient (zC10.selColor 0)).2.gradientState
        ≠ GradientState.uninit) ∧
     ((zC10.StartPath 0 0 0).fill = Fill.gradient) ∧
     ((zC10.StartPath 0 0 0).disabled = !zC10.lodGate)) :=
  ⟨⟨by decide, by decide, by decide⟩,
   claim10_zero_stops zC10 0 0 0 (by decide) (by decide) (by decide)⟩

/-! ### The compositing-operator latch -/

/-- `latchCount` is additive over trace concatenation. -/
theorem latchCount_append (t1 t2 : List Event) :
    latchCount (t1 ++ t2) = latchCount t1 + latchCount t2 :=
  List.countP_append _ _ _

/-- The paint step of `StartPath` leaves the trace unchanged. -/
theorem startPathPaint_trace (z : Rasterizer) (adj : ℕ) :
    (z.startPathPaint adj).trace = z.trace := by
  unfold Rasterizer.startPathPaint
  dsimp only
  split
  · rfl
  · split
    · exact (initGradient_proj z (z.selColor adj)).2.2.2.1
    · rfl

/-- The paint step of `StartPath` leaves `firstStartPath` unchanged. -/
theorem startPathPaint_fsp (z : Rasterizer) (adj : ℕ) :
    (z.startPathPaint adj).firstStartPath = z.firstStartPath := by
  unfold Rasterizer.startPathPaint
  dsimp only
  split
  · rfl
  · split
    · exact (initGradient_proj z (z.selColor adj)).2.2.2.2.1
    · rfl

/-- Cube-emitting folds do not latch and keep `firstStartPath`. -/
theorem foldl_cubeTo_latch (f : Rasterizer → ℕ → Rasterizer)
    (hf : ∀ z i, ∃ c1 c2 p, f z i = z.vecCubeTo c1 c2 p) :
    ∀ (l : List ℕ) (z0 : Rasterizer),
      latchCount (l.foldl f z0).trace = latchCount z0.trace ∧
      (l.foldl f z0).firstStartPath = z0.firstStartPath := by
  intro l
  induction l with
  | nil => exact fun z0 => ⟨rfl, rfl⟩
  | cons i l ih =>
    intro z0
    obtain ⟨c1, c2, p, hfz⟩ := hf z0 i
    obtain ⟨h1, h2⟩ := ih (f z0 i)
    rw [List.foldl_cons] at *
    refine ⟨?_, by rw [h2, hfz]; rfl⟩
    rw [h1, hfz]
    simp [Rasterizer.vecCubeTo, latchCount_append, latchCount, List.countP_cons]

/-- `arcSegments` does not latch and keeps `firstStartPath`. -/
theorem arcSegments_latch (t : TrigOps) (z0 : Rasterizer)
    (cx cy theta1 deltaTheta rx ry cosPhi sinPhi : ℚ) (n : ℕ) :
    latchCount (Rasterizer.arcSegments t z0 cx cy theta1 deltaTheta rx ry
      cosPhi sinPhi n).trace = latchCount z0.trace ∧
    (Rasterizer.arcSegments t z0 cx cy theta1 deltaTheta rx ry cosPhi sinPhi
      n).firstStartPath = z0.firstStartPath := by
  unfold Rasterizer.arcSegments
  exact foldl_cubeTo_latch _ (fun zz i => ⟨_, _, _, rfl⟩) _ _

/-- `AbsArcTo` does not latch and keeps `firstStartPath`. -/
theorem absArcTo_latch (t : TrigOps) (z : Rasterizer) (rx ry xAxisRot : ℚ)
    (la sw : Bool) (x y : ℚ) :
    latchCount (z.AbsArcTo t rx ry xAxisRot la sw x y).trace
      = latchCount z.trace ∧
    (z.AbsArcTo t rx ry xAxisRot la sw x y).firstStartPath
      = z.firstStartPath := by
  unfold Rasterizer.AbsArcTo
  dsimp only
  by_cases hd : z.disabled = true
  · rw [if_pos hd]
    exact ⟨rfl, rfl⟩
  · rw [if_neg hd]
    by_cases hdeg : 0 < |rx| ∧ 0 < |ry|
    · rw [if_neg (not_not_intro hdeg)]
      exact arcSegments_latch t _ _ _ _ _ _ _ _ _ _
    · rw [if_pos hdeg]
      constructor
      · simp [Rasterizer.vecLineTo, latchCount_append, latchCount,
          List.countP_cons]
      · rfl

/-- The exact latch behavior of one `StartPath`: the compositing operator is
latched (one `setDrawOp` call is emitted) precisely when `firstStartPath`
still holds and the path comes out enabled. -/
theorem startPath_latch_emit (z : Rasterizer) (adj : ℕ) (x y : ℚ) :
    latchCount (z.StartPath adj x y).trace
      = latchCount z.trace
        + (if z.firstStartPath = true ∧ (z.StartPath adj x y).disabled = false
           then 1 else 0) := by
  have hppT := startPathPaint_trace z adj
  have hppF := startPathPaint_fsp z adj
  unfold Rasterizer.StartPath
  dsimp only
  split
  · next hdis =>
    simp only [Bool.not_eq_true] at hdis ⊢
    simp [hppT, hdis]
  · next hdis =>
    simp only [Bool.not_eq_true] at hdis
    simp only [Bool.or_eq_false_iff, Bool.not_eq_false] at hdis
    simp only [Rasterizer.vecReset, Rasterizer.vecMoveTo]
    split
    · next hf =>
      rw [hppF] at hf
      simp [hppT, hf, hdis.1, hdis.2, latchCount_append, latchCount,
        List.countP_cons, List.countP_nil]
    · next hf =>
      rw [hppF] at hf
      simp only [Bool.not_eq_true] at hf
      simp [hppT, hf, latchCount_append, latchCount, List.countP_cons,
        List.countP_nil]

/-- The latch balance of one `StartPath`: emitted latches plus the remaining
`firstStartPath` budget is conserved. -/
theorem startPath_latch_balance (z : Rasterizer) (adj : ℕ) (x y : ℚ) :
    latchCount (z.StartPath adj x y).trace
        + (z.StartPath adj x y).firstStartPath.toNat
      = latchCount z.trace + z.firstStartPath.toNat := by
  have hppT := startPathPaint_trace z adj
  have hppF := startPathPaint_fsp z adj
  unfold Rasterizer.StartPath
  dsimp only
  split
  · simp [hppT, hppF]
  · simp only [Rasterizer.vecReset, Rasterizer.vecMoveTo]
    split
    · next hf =>
      rw [hppF] at hf
      simp [hppT, hf, latchCount_append, latchCount, List.countP_cons,
        List.countP_nil]
    · next hf =>
      rw [hppF] at hf
      simp only [Bool.not_eq_true] at hf
      simp [hppT, hppF, hf, latchCount_append, latchCount, List.countP_cons,
        List.countP_nil]

/-- Every non-`Reset` command conserves emitted latches plus the remaining
`firstStartPath` budget. -/
theorem step_latch_balance (t : TrigOps) (c : Cmd) (z : Rasterizer)
    (hc : c.isReset = false) :
    latchCount (step t c z).trace + (step t c z).firstStartPath.toNat
      = latchCount z.trace + z.firstStartPath.toNat := by
  cases c with
  | reset m => simp [Cmd.isReset] at hc
  | startPath adj x y => exact startPath_latch_balance z adj x y
  | absArcTo rx ry rot la sw x y =>
    obtain ⟨h1, h2⟩ := absArcTo_latch t z rx ry rot la sw x y
    simp [step, h1, h2]
  | relArcTo rx ry rot la sw x y =>
    obtain ⟨h1, h2⟩ :=
      absArcTo_latch t z rx ry rot la sw (z.unabsX (z.relVec2 x y).1)
        (z.unabsY (z.relVec2 x y).2)
    simp [step, Rasterizer.RelArcTo, h1, h2]
  | setDstImage b r op => simp [step, Rasterizer.SetDstImage,
      Rasterizer.recalcTransform]
  | setCSel v => simp [step, Rasterizer.SetCSel]
  | setNSel v => simp [step, Rasterizer.SetNSel]
  | setCReg adj incr c => simp [step, Rasterizer.SetCReg]
  | setNReg adj incr f => simp [step, Rasterizer.SetNReg]
  | setLOD l0 l1 => simp [step, Rasterizer.SetLOD]
  | closePathEndPath =>
    simp only [step]
    unfold Rasterizer.ClosePathEndPath
    split
    · rfl
    · dsimp only
      split <;>
        simp [Rasterizer.vecClosePath, Rasterizer.vecDraw, latchCount_append,
          latchCount, List.countP_cons, List.countP_nil]
  | closePathAbsMoveTo a b =>
    simp only [step]
    unfold Rasterizer.ClosePathAbsMoveTo
    split
    · rfl
    · simp [Rasterizer.vecClosePath, Rasterizer.vecMoveTo, latchCount_append,
        latchCount, List.countP_cons, List.countP_nil]
  | closePathRelMoveTo a b =>
    simp only [step]
    unfold Rasterizer.ClosePathRelMoveTo
    split
    · rfl
    · simp [Rasterizer.vecClosePath, Rasterizer.vecMoveTo, latchCount_append,
        latchCount, List.countP_cons, List.countP_nil]
  | absHLineTo a =>
    simp only [step]
    unfold Rasterizer.AbsHLineTo
    split
    · rfl
    · simp [Rasterizer.vecLineTo, latchCount_append, latchCount,
        List.countP_cons, List.countP_nil]
  | relHLineTo a =>
    simp only [step]
    unfold Rasterizer.RelHLineTo
    split
    · rfl
    · simp [Rasterizer.vecLineTo, latchCount_append, latchCount,
        List.countP_cons, List.countP_nil]
  | absVLineTo a =>
    simp only [step]
    unfold Rasterizer.AbsVLineTo
    split
    · rfl
    · simp [Rasterizer.vecLineTo, latchCount_append, latchCount,
        List.countP_cons, List.countP_nil]
  | relVLineTo a =>
    simp only [step]
    unfold Rasterizer.RelVLineTo
    split
    · rfl
    · simp [Rasterizer.vecLineTo, latchCount_append, latchCount,
        List.countP_cons, List.countP_nil]
  | absLineTo a b =>
    simp only [step]
    unfold Rasterizer.AbsLineTo
    split
    · rfl
    · simp [Rasterizer.vecLineTo, latchCount_append, latchCount,
        List.countP_cons, List.countP_nil]
  | relLineTo a b =>
    simp only [step]
    unfold Rasterizer.RelLineTo
    split
    · rfl
    · simp [Rasterizer.vecLineTo, latchCount_append, latchCount,
        List.countP_cons, List.countP_nil]
  | absSmoothQuadTo a b =>
    simp only [step]
    unfold Rasterizer.AbsSmoothQuadTo
    split
    · rfl
    · simp [Rasterizer.vecQuadTo, latchCount_append, latchCount,
        List.countP_cons, List.countP_nil]
  | relSmoothQuadTo a b =>
    simp only [step]
    unfold Rasterizer.RelSmoothQuadTo
    split
    · rfl
    · simp [Rasterizer.vecQuadTo, latchCount_append, latchCount,
        List.countP_cons, List.countP_nil]
  | absQuadTo a b cc d =>
    simp only [step]
    unfold Rasterizer.AbsQuadTo
    split
    · rfl
    · simp [Rasterizer.vecQuadTo, latchCount_append, latchCount,
        List.countP_cons, List.countP_nil]
  | relQuadTo a b cc d =>
    simp only [step]
    unfold Rasterizer.RelQuadTo
    split
    · rfl
    · simp [Rasterizer.vecQuadTo, latchCount_append, latchCount,
        List.countP_cons, List.countP_nil]
  | absSmoothCubeTo a b cc d =>
    simp only [step]
    unfold Rasterizer.AbsSmoothCubeTo
    split
    · rfl
    · simp [Rasterizer.vecCubeTo, latchCount_append, latchCount,
        List.countP_cons, List.countP_nil]
  | relSmoothCubeTo a b cc d =>
    simp only [step]
    unfold Rasterizer.RelSmoothCubeTo
    split
    · rfl
    · simp [Rasterizer.vecCubeTo, latchCount_append, latchCount,
        List.countP_cons, List.countP_nil]
  | absCubeTo a b cc d e ff =>
    simp only [step]
    unfold Rasterizer.AbsCubeTo
    split
    · rfl
    · simp [Rasterizer.vecCubeTo, latchCount_append, latchCount,
        List.countP_cons, List.countP_nil]
  | relCubeTo a b cc d e ff =>
    simp only [step]
    unfold Rasterizer.RelCubeTo
    split
    · rfl
    · simp [Rasterizer.vecCubeTo, latchCount_append, latchCount,
        List.countP_cons, List.countP_nil]

/-- Latch balance over a whole `Reset`-free command run. -/
theorem run_latch_balance (t : TrigOps) (cmds : List Cmd) (z : Rasterizer)
    (h : ∀ c ∈ cmds, c.isReset = false) :
    latchCount (run t cmds z).trace + (run t cmds z).firstStartPath.toNat
      = latchCount z.trace + z.firstStartPath.toNat := by
  induction cmds generalizing z with
  | nil => rfl
  | cons c cmds ih =>
    have hstep := step_latch_balance t c z (h c (List.mem_cons_self c cmds))
    have hrest := ih (step t c z) (fun c' hc' => h c' (List.mem_cons_of_mem c hc'))
    calc latchCount (run t (c :: cmds) z).trace
          + (run t (c :: cmds) z).firstStartPath.toNat
        = latchCount (run t cmds (step t c z)).trace
          + (run t cmds (step t c z)).firstStartPath.toNat := rfl
      _ = latchCount (step t c z).trace + (step t c z).firstStartPath.toNat :=
        hrest
      _ = latchCount z.trace + z.firstStartPath.toNat := hstep

/-- **C3 (counterexample).** In the run `Reset; SetLOD(100,200);
StartPath; SetLOD(0,+∞); StartPath`, the operator is latched exactly once in
the cycle — but *not* during the first `StartPath` after the `Reset` (which
is LOD-disabled): after the prefix ending at the first `StartPath` no latch
has happened, while the full run has one. -/
theorem claim3_counterexample :
    latchCount (run trivTrig latchCmdsPrefix (initial.Reset mdC3)).trace = 0 ∧
    latchCount (run trivTrig latchCmds (initial.Reset mdC3)).trace = 1 := by
  decide

/-- **C3 (amended).** In any `Reset`-free command run after a `Reset`, the
compositing operator is latched at most once: the latch count since the
`Reset` is 0 while `firstStartPath` still holds and 1 once it has been
cleared; and a single `StartPath` emits the latch exactly when
`firstStartPath` holds and the path comes out enabled — so the latch
happens at the first non-disabled `StartPath` of the cycle, and never if
every `StartPath` of the cycle is disabled. -/
theorem claim3_amended (t : TrigOps) (z : Rasterizer) (m : Metadata)
    (cmds : List Cmd) (hnr : ∀ c ∈ cmds, c.isReset = false) :
    (latchCount (run t cmds (z.Reset m)).trace
       = latchCount (z.Reset m).trace
         + (if (run t cmds (z.Reset m)).firstStartPath then 0 else 1)) ∧
    (latchCount (run t cmds (z.Reset m)).trace
       ≤ latchCount (z.Reset m).trace + 1) ∧
    (∀ (z0 : Rasterizer) (adj : ℕ) (x y : ℚ),
      latchCount (z0.StartPath adj x y).trace
        = latchCount z0.trace
          + (if z0.firstStartPath = true ∧ (z0.StartPath adj x y).disabled = false
             then 1 else 0)) := by
  have hbal := run_latch_balance t cmds (z.Reset m) hnr
  have hfsp : (z.Reset m).firstStartPath = true := rfl
  rw [hfsp] at hbal
  constructor
  · rcases hf : (run t cmds (z.Reset m)).firstStartPath <;>
      rw [hf] at hbal <;> simp [Bool.toNat] at hbal ⊢ <;> omega
  · constructor
    · rcases hf : (run t cmds (z.Reset m)).firstStartPath <;>
        rw [hf] at hbal <;> simp [Bool.toNat] at hbal ⊢ <;> omega
    · exact fun z0 adj x y => startPath_latch_emit z0 adj x y

/-- **C3 (witness).** The amended latch theorem applied to the concrete
`Reset`-free run `latchCmds`. -/
theorem claim3_witness :
    (∀ c ∈ latchCmds, c.isReset = false) ∧
    ((latchCount (run trivTrig latchCmds (initial.Reset mdC3)).trace
       = latchCount ((initial.Reset mdC3)).trace
         + (if (run trivTrig latchCmds (initial.Reset mdC3)).firstStartPath
            then 0 else 1)) ∧
     (latchCount (run trivTrig latchCmds (initial.Reset mdC3)).trace
       ≤ latchCount ((initial.Reset mdC3)).trace + 1) ∧
     (∀ (z0 : Rasterizer) (adj : ℕ) (x y : ℚ),
       latchCount (z0.StartPath adj x y).trace
         = latchCount z0.trace
           + (if z0.firstStartPath = true
                ∧ (z0.StartPath adj x y).disabled = false
              then 1 else 0))) :=
  ⟨by decide, claim3_amended trivTrig initial mdC3 latchCmds (by decide)⟩

end IconVG
